import Mathlib

/-!
Shallow embedding of the blackhole framework core
(source: src/blackhole/base.py, concrete renderers in src/blackhole/widgets.py).

Python dictionaries are modelled as association lists with unique keys
(insertion order preserved, assignment replaces in place or appends).
Logging calls go to an external sink and are omitted.  Raised-and-caught
exceptions are modelled with Option/Except.  Ghost instrumentation fields
(render_count, load_log, broadcast_count) record how often the externally
observable callbacks (render routine, user load_function, broadcast
callback) are invoked; they influence no control flow.
-/

namespace Blackhole

/-- Python dict membership test (k in d). -/
def dictContains {κ α : Type} [BEq κ] : List (κ × α) → κ → Bool
  | [], _ => false
  | p :: rest, k => p.1 == k || dictContains rest k

/-- Python dict lookup d[k]; none models a KeyError. -/
def dictGet? {κ α : Type} [BEq κ] : List (κ × α) → κ → Option α
  | [], _ => none
  | p :: rest, k => if p.1 == k then some p.2 else dictGet? rest k

/-- Python dict assignment d[k] = v: replaces in place if the key exists,
otherwise appends (insertion order). -/
def dictSet {κ α : Type} [BEq κ] : List (κ × α) → κ → α → List (κ × α)
  | [], k, v => [(k, v)]
  | p :: rest, k, v => if p.1 == k then (k, v) :: rest else p :: dictSet rest k v

theorem dictGet?_set_self {κ α : Type} [BEq κ] [LawfulBEq κ]
    (d : List (κ × α)) (k : κ) (v : α) :
    dictGet? (dictSet d k v) k = some v := by
  induction d with
  | nil => simp [dictSet, dictGet?]
  | cons p rest ih =>
    by_cases h : p.1 = k
    · simp [dictSet, dictGet?, h]
    · simp [dictSet, dictGet?, h, ih]

theorem dictGet?_set_ne {κ α : Type} [BEq κ] [LawfulBEq κ]
    (d : List (κ × α)) (k k' : κ) (v : α) (hne : k' ≠ k) :
    dictGet? (dictSet d k v) k' = dictGet? d k' := by
  have hne' : k ≠ k' := fun hk => hne hk.symm
  induction d with
  | nil => simp [dictSet, dictGet?, hne']
  | cons p rest ih =>
    by_cases h : p.1 = k
    · simp [dictSet, dictGet?, h, hne']
    · simp [dictSet, dictGet?, h, ih]

/-- Value stored in a parameter mapping (config parameters, control values).
The framework never inspects the payload; a small closed type suffices. -/
inductive BHValue : Type where
  | s (v : String)
  | i (v : Int)
  | b (v : Bool)
deriving DecidableEq, Repr

/-- BHControlState: a state of controls/inputs from the UI
(base.py lines 48-85).  The external log sink is omitted. -/
structure BHControlState : Type where
  _parameters : List (String × BHValue)
deriving DecidableEq, Repr

namespace BHControlState

/-- BHControlState.add_param: inserts/overwrites unconditionally. -/
def add_param (s : BHControlState) (param : String) (val : BHValue) : BHControlState :=
  { s with _parameters := dictSet s._parameters param val }

/-- BHControlState.has_param: membership check. -/
def has_param (s : BHControlState) (param : String) : Bool :=
  dictContains s._parameters param

/-- BHControlState.get_param: lookup; none models the KeyError raised on a
missing name. -/
def get_param (s : BHControlState) (param : String) : Option BHValue :=
  dictGet? s._parameters param

/-- BHControlState.update_param (base.py lines 72-82).  The python default
for add_if_missing is False; callers of this embedding pass the flag
explicitly. -/
def update_param (s : BHControlState) (param : String) (val : BHValue)
    (add_if_missing : Bool) : BHControlState :=
  if !has_param s param then
    if add_if_missing then add_param s param val else s
  else
    { s with _parameters := dictSet s._parameters param val }

end BHControlState

/-- BHListenerWidget (base.py lines 108-148): a widget that updates to match
the control state.  render_count is ghost instrumentation counting
invocations of the render routine. -/
structure BHListenerWidget : Type where
  is_current : Bool
  _is_active : Bool
  render_count : Nat
deriving DecidableEq, Repr

namespace BHListenerWidget

/-- BHListenerWidget._render_widget: abstract in base.py; every concrete
implementation in the repository (widgets.py lines 58-67 and 169-191)
redraws from the control state and ends by setting is_current = True. -/
def _render_widget (w : BHListenerWidget) : BHListenerWidget :=
  { w with render_count := w.render_count + 1, is_current := true }

/-- BHListenerWidget.is_active. -/
def is_active (w : BHListenerWidget) : Bool :=
  w._is_active

/-- BHListenerWidget._ensure_current: re-render if active and out of date. -/
def _ensure_current (w : BHListenerWidget) : BHListenerWidget :=
  if w.is_active && !w.is_current then _render_widget w else w

/-- BHListenerWidget._get_update: mark non-current, then re-render if
active. -/
def _get_update (w : BHListenerWidget) : BHListenerWidget :=
  _ensure_current { w with is_current := false }

/-- BHListenerWidget.set_active: set the active flag and run the refresh
check. -/
def set_active (w : BHListenerWidget) (b : Bool) : BHListenerWidget :=
  _ensure_current { w with _is_active := b }

end BHListenerWidget

/-- The control-subscriber side of BHMainWindow (base.py lines 620, 637-647).
GUI chrome is external; only the subscriber list matters to the core. -/
structure BHMainWindow : Type where
  control_subscribers : List BHListenerWidget
deriving DecidableEq, Repr

/-- BHMainWindow.add_control_subscriber. -/
def add_control_subscriber (mw : BHMainWindow) (w : BHListenerWidget) : BHMainWindow :=
  { mw with control_subscribers := mw.control_subscribers ++ [w] }

/-- BHMainWindow.broadcast_control_changes: calls w._get_update on every
subscriber, in registration order (python mutates each widget in place;
the functional embedding maps the updater over the list). -/
def broadcast_control_changes (mw : BHMainWindow) : BHMainWindow :=
  { mw with control_subscribers := mw.control_subscribers.map BHListenerWidget._get_update }

/-- os.path.basename: everything after the last slash (computed over the
character list so the kernel can evaluate it). -/
def osPathBasename (s : String) : String :=
  String.mk (s.data.foldl (fun acc c => if c = '/' then [] else acc ++ [c]) [])

/-- Whether a string starts with a slash (character-list form of
startswith). -/
def startsSlash (s : String) : Bool :=
  match s.data with
  | c :: _ => c = '/'
  | [] => false

/-- Whether a string ends with a slash (character-list form of
endswith). -/
def endsSlash (s : String) : Bool :=
  match s.data.getLast? with
  | some c => c = '/'
  | none => false

/-- os.path.join for two components (POSIX rules). -/
def osPathJoin2 (a b : String) : String :=
  if startsSlash b then b
  else if a = "" || endsSlash a then a ++ b
  else a ++ "/" ++ b

/-- os.path.join(*parts): requires at least one part (none models the
TypeError raised on an empty argument list). -/
def osPathJoinList : List String → Option String
  | [] => none
  | p :: rest => some (rest.foldl osPathJoin2 p)

/-- Iterating a python string yields its one-character strings. -/
def charsOf (s : String) : List String :=
  s.data.map (fun c => c.toString)

/-- One pass of apply_abbreviations (base.py lines 16-40): non-abbreviation
path elements pass through; an abbreviation value (a string) is expanded by
the supplied expander, which stands for the recursive expand_path_list
call the source makes on it. -/
def applyAbbrevsPass (expand1 : String → Option String) :
    List String → List (String × String) → Option (List String)
  | [], _ => some []
  | pd :: rest, abbrevs =>
    match dictGet? abbrevs pd with
    | some v =>
      match expand1 v with
      | none => none
      | some s => (applyAbbrevsPass expand1 rest abbrevs).map (fun np => s :: np)
    | none => (applyAbbrevsPass expand1 rest abbrevs).map (fun np => pd :: np)

/-- apply_abbreviations (base.py lines 16-40): the expander for an
abbreviation value iterates its characters (python iterates a string
character by character) and joins them.  The fuel models python's
recursion limit: its exhaustion is the RecursionError raised on cyclic
abbreviation tables, caught by the caller, here surfaced as none. -/
def apply_abbreviations : Nat → List String → List (String × String) → Option (List String)
  | 0, path, abbrevs => applyAbbrevsPass (fun _ => none) path abbrevs
  | f + 1, path, abbrevs =>
    applyAbbrevsPass
      (fun v => (apply_abbreviations f (charsOf v) abbrevs).bind osPathJoinList)
      path abbrevs

/-- expand_path_list (base.py lines 42-46): applies abbreviations and
joins the path elements. -/
def expand_path_list (fuel : Nat) (path : List String) (abbrevs : List (String × String)) :
    Option String :=
  (apply_abbreviations fuel path abbrevs).bind osPathJoinList

/-- Python's default recursion limit, the fuel for abbreviation
expansion. -/
def recursionFuel : Nat := 1000

/-- BHDataSource (base.py lines 195-206): where to find a data source and
its declared parameters.  Field assignments mirror its constructor. -/
structure BHDataSource : Type where
  file_fullpath : String
  file_name : String
  parameters : List (String × BHValue)
  valid_active_set_indices : List Int
  unique_id : Nat
deriving DecidableEq, Repr

/-- BHDataSource.__init__ (base.py lines 200-206).  Note: the constructor
body assigns the literal empty list to valid_active_set_indices and never
reads its valid_idx argument. -/
def BHDataSource.init (filename : String) (params : List (String × BHValue))
    (valid_idx : List Int) (unique_id : Nat) : BHDataSource :=
  { file_fullpath := filename
    file_name := osPathBasename filename
    parameters := params
    valid_active_set_indices := []
    unique_id := unique_id }

/-- BHDataset (base.py lines 208-224): the loaded in-memory data for one
source.  User-defined derived fields are irrelevant to the core. -/
structure BHDataset : Type where
  control_performed : BHControlState
  source_info : BHDataSource
  unique_id : Nat
deriving DecidableEq, Repr

/-- BHDataset.__init__ (base.py lines 218-224): copies unique_id from the
source descriptor. -/
def BHDataset.init (source_info : BHDataSource) : BHDataset :=
  { control_performed := ⟨[]⟩
    source_info := source_info
    unique_id := source_info.unique_id }

/-- DataFilterLayer (base.py lines 226-238). -/
structure DataFilterLayer : Type where
  layer_idx : Int
  group_parameters : List String
  include_all_option : Bool
deriving DecidableEq, Repr

/-- BHDatasetManager state (base.py lines 240-275).  The user-supplied
load_function is passed explicitly to the operations that call it (it is
installed once at construction and never replaced); broadcast_callback,
a closure over external GUI state, is modelled by whether it is installed
(python: None until the main window installs one) plus the ghost
invocation counter broadcast_count.  load_log is ghost instrumentation:
the unique_id of the source passed to each load_function invocation, in
call order. -/
structure BHDatasetManager : Type where
  expected_file_parameters : List String
  abbrevs : List (String × String)
  loaded_data : List BHDataset
  active_datasets : List (Int × Nat)
  sources_info : List BHDataSource
  org_structure : List DataFilterLayer
  broadcast_callback : Bool
  broadcast_count : Nat
  load_log : List Nat
deriving DecidableEq, Repr

/-- BHDatasetManager.__init__ (base.py lines 249-275): everything empty,
no broadcast callback installed. -/
def BHDatasetManager.init : BHDatasetManager :=
  { expected_file_parameters := []
    abbrevs := []
    loaded_data := []
    active_datasets := []
    sources_info := []
    org_structure := []
    broadcast_callback := false
    broadcast_count := 0
    load_log := [] }

/-- BHDatasetManager.broadcast_was_changed (base.py lines 415-417): runs
the callback only when one is installed. -/
def broadcast_was_changed (m : BHDatasetManager) : BHDatasetManager :=
  if m.broadcast_callback then { m with broadcast_count := m.broadcast_count + 1 } else m

/-- The loop over self.loaded_data in set_active_dataset (base.py lines
392-397): index of the first loaded dataset with the given unique_id. -/
def findLoadedIdx : List BHDataset → Nat → Option Nat
  | [], _ => none
  | ds :: rest, unique_id =>
    if ds.unique_id == unique_id then some 0
    else (findLoadedIdx rest unique_id).map (fun i => i + 1)

/-- BHDatasetManager.set_active_dataset (base.py lines 387-413): resolve
against loaded_data first, else load from sources_info, else fail. -/
def set_active_dataset (loadf : BHDataSource → BHDataset) (m : BHDatasetManager)
    (unique_id : Nat) (active_index : Int) : Bool × BHDatasetManager :=
  match findLoadedIdx m.loaded_data unique_id with
  | some idx =>
    (true, broadcast_was_changed
      { m with active_datasets := dictSet m.active_datasets active_index idx })
  | none =>
    match m.sources_info.find? (fun s => s.unique_id == unique_id) with
    | some ulds =>
      let loaded' := m.loaded_data ++ [loadf ulds]
      (true, broadcast_was_changed
        { m with
            loaded_data := loaded'
            load_log := m.load_log ++ [ulds.unique_id]
            active_datasets := dictSet m.active_datasets active_index (loaded'.length - 1) })
    | none => (false, m)

/-- BHDatasetManager.get_active (base.py lines 419-430): pure lookup; none
models the logged-and-returned None for a never-selected slot.  The
manager is returned untouched (the method performs no assignment). -/
def get_active (m : BHDatasetManager) (active_index : Int) :
    Option BHDataset × BHDatasetManager :=
  match dictGet? m.active_datasets active_index with
  | none => (none, m)
  | some idx => (m.loaded_data.get? idx, m)

/-- A sequence of set_active_dataset calls, each a (unique_id, slot)
pair. -/
def runActivations (loadf : BHDataSource → BHDataset) (m : BHDatasetManager)
    (calls : List (Nat × Int)) : BHDatasetManager :=
  calls.foldl (fun mm c => (set_active_dataset loadf mm c.1 c.2).2) m

/-- One entry of the dir_abbrev section of the configuration file. -/
structure AbbrevEntry : Type where
  shortcut : String
  expanded : String
deriving DecidableEq, Repr

/-- One entry of the data_sources section of the configuration file. -/
structure DataSourceEntry : Type where
  file_path : List String
  parameters : List (String × BHValue)
  valid_active_set_indices : List Int
deriving DecidableEq, Repr

/-- One entry of the organization_structure section of the configuration
file. -/
structure OrgEntry : Type where
  layer : Int
  group_parameters : List String
  include_all_option : Bool
deriving DecidableEq, Repr

/-- The parsed JSON configuration consumed by load_configuration. -/
structure DataConf : Type where
  dir_abbrev : List AbbrevEntry
  data_sources : List DataSourceEntry
  organization_structure : List OrgEntry
deriving DecidableEq, Repr

/-- The parameter-reading inner loop of load_configuration (base.py lines
345-353): for each expected key, fail if the record lacks it, else copy
its value, in expected-key order.  none models the return False on a
missing parameter. -/
def read_params : List String → List (String × BHValue) → Option (List (String × BHValue))
  | [], _ => some []
  | efp :: rest, srcparams =>
    match dictGet? srcparams efp with
    | none => none
    | some v => (read_params rest srcparams).map (fun ps => (efp, v) :: ps)

/-- The data_sources loop of load_configuration (base.py lines 326-362),
threading the expected-parameter list, accumulated sources, next
unique_id, and the first_iter flag (which the source initialises to True
and never clears, so expected_file_parameters is re-assigned from every
record).  An error value carries the partially applied
(expected_file_parameters, sources_info) pair, because the python code
mutates those manager attributes in place before a later record can
fail. -/
def read_data_sources (abbrevs : List (String × String)) :
    List DataSourceEntry → List String → List BHDataSource → Nat → Bool →
    Except (List String × List BHDataSource) (List String × List BHDataSource)
  | [], expected, acc, _, _ => .ok (expected, acc)
  | srcdict :: rest, expected, acc, next_unique_id, first_iter =>
    match expand_path_list recursionFuel srcdict.file_path abbrevs with
    | none => .error (expected, acc)
    | some file =>
      let expected' := if first_iter then srcdict.parameters.map Prod.fst else expected
      match read_params expected' srcdict.parameters with
      | none => .error (expected', acc)
      | some params =>
        read_data_sources abbrevs rest expected'
          (acc ++ [BHDataSource.init file params srcdict.valid_active_set_indices next_unique_id])
          (next_unique_id + 1) first_iter

/-- The layer-number check at the end of load_configuration (base.py
lines 374-383): every i below the layer count must be the layer_idx of
exactly one layer. -/
def org_layers_valid (org : List DataFilterLayer) : Bool :=
  (List.range org.length).all
    (fun i => org.countP (fun o => o.layer_idx == (i : Int)) == 1)

/-- BHDatasetManager.load_configuration (base.py lines 277-385) over an
already parsed configuration.  data_conf = none models the file-open or
JSON failure (caught, returns False); the filename and filepath arguments
and the raise on both being None are file-system glue outside the
embedding.  The user_abbrevs merge happens before anything can fail, the
file abbreviations before the data_sources section, and the organization
layers are appended before they are validated, exactly as in the
source. -/
def load_configuration (m0 : BHDatasetManager) (user_abbrevs : List (String × String))
    (data_conf : Option DataConf) : Bool × BHDatasetManager :=
  let m1 := { m0 with
    abbrevs := user_abbrevs.foldl (fun d ua => dictSet d ua.1 ua.2) m0.abbrevs }
  match data_conf with
  | none => (false, m1)
  | some conf =>
    let m2 := { m1 with
      abbrevs := conf.dir_abbrev.foldl
        (fun d (ab : AbbrevEntry) => dictSet d ab.shortcut ab.expanded) m1.abbrevs }
    match read_data_sources m2.abbrevs conf.data_sources
        m2.expected_file_parameters m2.sources_info 0 true with
    | .error ea =>
      (false, { m2 with expected_file_parameters := ea.1, sources_info := ea.2 })
    | .ok oka =>
      let m3 := { m2 with expected_file_parameters := oka.1, sources_info := oka.2 }
      let m4 := { m3 with
        org_structure := m3.org_structure ++ conf.organization_structure.map
          (fun (r : OrgEntry) => DataFilterLayer.mk r.layer r.group_parameters r.include_all_option) }
      if org_layers_valid m4.org_structure then (true, m4) else (false, m4)

@[simp] theorem broadcast_was_changed_loaded_data (m : BHDatasetManager) :
    (broadcast_was_changed m).loaded_data = m.loaded_data := by
  unfold broadcast_was_changed; split <;> rfl

@[simp] theorem broadcast_was_changed_active_datasets (m : BHDatasetManager) :
    (broadcast_was_changed m).active_datasets = m.active_datasets := by
  unfold broadcast_was_changed; split <;> rfl

@[simp] theorem broadcast_was_changed_sources_info (m : BHDatasetManager) :
    (broadcast_was_changed m).sources_info = m.sources_info := by
  unfold broadcast_was_changed; split <;> rfl

@[simp] theorem broadcast_was_changed_load_log (m : BHDatasetManager) :
    (broadcast_was_changed m).load_log = m.load_log := by
  unfold broadcast_was_changed; split <;> rfl

/-- C9: For every ControlState, a parameter name never added to it, and any
value, update_param with the create-if-missing flag at its python default
(False) leaves the parameter map completely unchanged. -/
theorem claim_C9 (s : BHControlState) (p : String) (v : BHValue)
    (h : s.has_param p = false) :
    s.update_param p v false = s := by
  simp [BHControlState.update_param, h]

theorem claim_C9_witness :
    BHControlState.has_param ⟨[("a", BHValue.i 1)]⟩ "b" = false
    ∧ BHControlState.update_param ⟨[("a", BHValue.i 1)]⟩ "b" (BHValue.i 2) false
        = ⟨[("a", BHValue.i 1)]⟩ :=
  ⟨by decide, claim_C9 ⟨[("a", BHValue.i 1)]⟩ "b" (BHValue.i 2) (by decide)⟩

/-- C7: broadcast_control_changes runs _get_update on every registered
control subscriber exactly once, in registration order; _get_update marks
the subscriber non-current and its render routine runs during the
broadcast iff the subscriber is active; an inactive subscriber is left
stale with no render, and the refresh check fires immediately once
set_active(true) runs, rendering it then. -/
theorem claim_C7 (mw : BHMainWindow) (w : BHListenerWidget) :
    (broadcast_control_changes mw).control_subscribers
        = mw.control_subscribers.map BHListenerWidget._get_update
    ∧ w._get_update.render_count = w.render_count + (if w.is_active then 1 else 0)
    ∧ (w.is_active = true → w._get_update.is_current = true)
    ∧ (w.is_active = false →
        w._get_update.is_current = false
        ∧ w._get_update.render_count = w.render_count
        ∧ (w._get_update.set_active true).render_count = w.render_count + 1
        ∧ (w._get_update.set_active true).is_current = true) := by
  obtain ⟨cur, act, rc⟩ := w
  cases act <;>
    simp [broadcast_control_changes, BHListenerWidget._get_update,
      BHListenerWidget._ensure_current, BHListenerWidget._render_widget,
      BHListenerWidget.is_active, BHListenerWidget.set_active]

theorem claim_C7_witness :
    (broadcast_control_changes ⟨[⟨true, false, 0⟩]⟩).control_subscribers
        = [⟨true, false, 0⟩].map BHListenerWidget._get_update
    ∧ (BHListenerWidget._get_update ⟨true, false, 0⟩).render_count
        = 0 + (if BHListenerWidget.is_active ⟨true, false, 0⟩ then 1 else 0)
    ∧ (BHListenerWidget.is_active ⟨true, false, 0⟩ = true →
        (BHListenerWidget._get_update ⟨true, false, 0⟩).is_current = true)
    ∧ (BHListenerWidget.is_active ⟨true, false, 0⟩ = false →
        (BHListenerWidget._get_update ⟨true, false, 0⟩).is_current = false
        ∧ (BHListenerWidget._get_update ⟨true, false, 0⟩).render_count = 0
        ∧ ((BHListenerWidget._get_update ⟨true, false, 0⟩).set_active true).render_count = 0 + 1
        ∧ ((BHListenerWidget._get_update ⟨true, false, 0⟩).set_active true).is_current = true) :=
  claim_C7 ⟨[⟨true, false, 0⟩]⟩ ⟨true, false, 0⟩

/-- C10: with no broadcast callback installed (its initial state),
broadcast_was_changed is a no-op, and set_active_dataset performs the same
resolution, slot update and boolean return as with a callback installed;
nothing is raised (the embedding is total). -/
theorem claim_C10 (loadf : BHDataSource → BHDataset) (m : BHDatasetManager)
    (h : m.broadcast_callback = false) (uid : Nat) (slot : Int) :
    broadcast_was_changed m = m
    ∧ (set_active_dataset loadf m uid slot).1
        = (set_active_dataset loadf { m with broadcast_callback := true } uid slot).1
    ∧ (set_active_dataset loadf m uid slot).2.loaded_data
        = (set_active_dataset loadf { m with broadcast_callback := true } uid slot).2.loaded_data
    ∧ (set_active_dataset loadf m uid slot).2.active_datasets
        = (set_active_dataset loadf { m with broadcast_callback := true } uid slot).2.active_datasets
    ∧ (set_active_dataset loadf m uid slot).2.sources_info
        = (set_active_dataset loadf { m with broadcast_callback := true } uid slot).2.sources_info
    ∧ (set_active_dataset loadf m uid slot).2.load_log
        = (set_active_dataset loadf { m with broadcast_callback := true } uid slot).2.load_log
    ∧ (set_active_dataset loadf m uid slot).2.broadcast_count = m.broadcast_count := by
  have hb : broadcast_was_changed m = m := by
    unfold broadcast_was_changed
    simp [h]
  refine ⟨hb, ?_⟩
  unfold set_active_dataset
  rcases hf : findLoadedIdx m.loaded_data uid with _ | idx
  · rcases hs : m.sources_info.find? (fun s => s.unique_id == uid) with _ | ulds <;>
      simp [hf, hs, broadcast_was_changed, h]
  · simp [hf, broadcast_was_changed, h]

theorem claim_C10_witness :
    BHDatasetManager.init.broadcast_callback = false
    ∧ (broadcast_was_changed BHDatasetManager.init = BHDatasetManager.init
      ∧ (set_active_dataset BHDataset.init BHDatasetManager.init 0 0).1
          = (set_active_dataset BHDataset.init { BHDatasetManager.init with broadcast_callback := true } 0 0).1
      ∧ (set_active_dataset BHDataset.init BHDatasetManager.init 0 0).2.loaded_data
          = (set_active_dataset BHDataset.init { BHDatasetManager.init with broadcast_callback := true } 0 0).2.loaded_data
      ∧ (set_active_dataset BHDataset.init BHDatasetManager.init 0 0).2.active_datasets
          = (set_active_dataset BHDataset.init { BHDatasetManager.init with broadcast_callback := true } 0 0).2.active_datasets
      ∧ (set_active_dataset BHDataset.init BHDatasetManager.init 0 0).2.sources_info
          = (set_active_dataset BHDataset.init { BHDatasetManager.init with broadcast_callback := true } 0 0).2.sources_info
      ∧ (set_active_dataset BHDataset.init BHDatasetManager.init 0 0).2.load_log
          = (set_active_dataset BHDataset.init { BHDatasetManager.init with broadcast_callback := true } 0 0).2.load_log
      ∧ (set_active_dataset BHDataset.init BHDatasetManager.init 0 0).2.broadcast_count
          = BHDatasetManager.init.broadcast_count) :=
  ⟨rfl, claim_C10 BHDataset.init BHDatasetManager.init rfl 0 0⟩

/-- Configuration used to refute C1: the dir_abbrev section and the
organization layers are applied before the layer-index validation fails,
so the failed call leaves the manager visibly changed. -/
def confC1 : DataConf :=
  { dir_abbrev := [⟨"D", "xyz"⟩]
    data_sources := []
    organization_structure := [⟨1, [], false⟩] }

/-- C1 counterexample: load_configuration on a fresh manager returns false
for confC1 (its single organization layer has index 1, not 0), yet the
manager is not equal to its pre-call state: the abbreviation table has
kept the parsed entry and the invalid layer stays appended. -/
theorem claim_C1_counterexample :
    (load_configuration BHDatasetManager.init [] (some confC1)).1 = false
    ∧ (load_configuration BHDatasetManager.init [] (some confC1)).2 ≠ BHDatasetManager.init
    ∧ (load_configuration BHDatasetManager.init [] (some confC1)).2.abbrevs = [("D", "xyz")]
    ∧ ((load_configuration BHDatasetManager.init [] (some confC1)).2.org_structure.map
        (fun o => o.layer_idx)) = [1] := by
  decide

/-- C1 amended: a failed load_configuration reports failure only through
the false return plus the logged diagnostic, and it never touches the
cache of loaded datasets or the active-slot map; however, sections parsed
before the failing stage (abbreviation table, expected parameter keys,
catalog entries, appended organization layers) may remain applied, so the
rest of the observable state is not guaranteed to be restored. -/
theorem claim_C1_amended (m : BHDatasetManager) (ua : List (String × String))
    (conf : Option DataConf) :
    (load_configuration m ua conf).2.loaded_data = m.loaded_data
    ∧ (load_configuration m ua conf).2.active_datasets = m.active_datasets
    ∧ (load_configuration m ua conf).2.load_log = m.load_log := by
  unfold load_configuration
  cases conf with
  | none => simp
  | some conf =>
    simp only
    split
    · simp
    · split <;> simp

/-- Configuration exhibiting the C2 bug: its single data-source record
carries the valid index list [1]. -/
def confC2 : DataConf :=
  { dir_abbrev := []
    data_sources := [⟨["f1"], [("p", BHValue.i 1)], [1]⟩]
    organization_structure := [] }

/-- C2 evaluated at the failing input: the load succeeds, the record's
valid_active_set_indices value is [1], yet the constructed BHDataSource
carries [] — BHDataSource.__init__ assigns the empty list and never reads
its valid_idx argument. -/
theorem claim_C2_bug :
    (load_configuration BHDatasetManager.init [] (some confC2)).1 = true
    ∧ confC2.data_sources.map (fun r => r.valid_active_set_indices) = [[1]]
    ∧ ((load_configuration BHDatasetManager.init [] (some confC2)).2.sources_info.map
        (fun s => s.valid_active_set_indices)) = [[]] := by
  decide

theorem read_data_sources_ok_ids (abbrevs : List (String × String))
    (recs : List DataSourceEntry) :
    ∀ (expected : List String) (acc : List BHDataSource) (uid : Nat) (fi : Bool)
      (e : List String) (srcs : List BHDataSource),
      read_data_sources abbrevs recs expected acc uid fi = .ok (e, srcs) →
      srcs.map (fun s => s.unique_id)
        = acc.map (fun s => s.unique_id) ++ List.range' uid recs.length := by
  induction recs with
  | nil =>
    intro expected acc uid fi e srcs h
    simp [read_data_sources] at h
    simp [h.2]
  | cons srcdict rest ih =>
    intro expected acc uid fi e srcs h
    unfold read_data_sources at h
    rcases hexp : expand_path_list recursionFuel srcdict.file_path abbrevs with _ | file
    · rw [hexp] at h; exact absurd h (by simp)
    · rw [hexp] at h
      simp only at h
      rcases hp : read_params
          (if fi then srcdict.parameters.map Prod.fst else expected) srcdict.parameters
          with _ | params
      · rw [hp] at h; exact absurd h (by simp)
      · rw [hp] at h
        simp only at h
        have := ih _ _ _ _ _ _ h
        rw [this]
        simp [List.range'_succ, BHDataSource.init]

/-- C4: after one successful load_configuration on a fresh manager whose
configuration has N data-source records, the catalog holds N DataSources
whose unique_id values are exactly 0..N-1, in record order. -/
theorem claim_C4 (ua : List (String × String)) (conf : DataConf) (m' : BHDatasetManager)
    (h : load_configuration BHDatasetManager.init ua (some conf) = (true, m')) :
    m'.sources_info.map (fun s => s.unique_id) = List.range conf.data_sources.length
    ∧ m'.sources_info.length = conf.data_sources.length := by
  unfold load_configuration at h
  simp only at h
  split at h
  · exact absurd h (by simp)
  · rename_i oka heq
    split at h
    · rw [Prod.mk.injEq] at h
      obtain ⟨-, h2⟩ := h
      subst h2
      have hids := read_data_sources_ok_ids _ _ _ _ _ _ _ _ heq
      have hmap : oka.2.map (fun s => s.unique_id)
          = List.range conf.data_sources.length := by
        rw [hids]
        simp [BHDatasetManager.init, List.range_eq_range']
      constructor
      · simpa using hmap
      · have hl := congrArg List.length hmap
        simpa using hl
    · exact absurd h (by simp)

/-- Concrete two-record configuration for the C4 witness. -/
def confC4 : DataConf :=
  { dir_abbrev := []
    data_sources := [⟨["f1"], [("p", BHValue.i 1)], []⟩, ⟨["f2"], [("p", BHValue.i 2)], []⟩]
    organization_structure := [⟨0, ["p"], false⟩] }

theorem claim_C4_witness :
    (load_configuration BHDatasetManager.init [] (some confC4)).2.sources_info.map
        (fun s => s.unique_id) = List.range confC4.data_sources.length
    ∧ (load_configuration BHDatasetManager.init [] (some confC4)).2.sources_info.length
        = confC4.data_sources.length :=
  claim_C4 [] confC4 (load_configuration BHDatasetManager.init [] (some confC4)).2 (by decide)

theorem set_active_dataset_active_other (loadf : BHDataSource → BHDataset)
    (m : BHDatasetManager) (uid : Nat) (slot slot' : Int) (hne : slot' ≠ slot) :
    dictGet? ((set_active_dataset loadf m uid slot).2).active_datasets slot'
      = dictGet? m.active_datasets slot' := by
  unfold set_active_dataset
  rcases hf : findLoadedIdx m.loaded_data uid with _ | idx
  · rcases hs : m.sources_info.find? (fun s => s.unique_id == uid) with _ | ulds <;>
      simp [hf, hs, dictGet?_set_ne _ _ _ _ hne]
  · simp [hf, dictGet?_set_ne _ _ _ _ hne]

theorem runActivations_slot_untouched (loadf : BHDataSource → BHDataset)
    (calls : List (Nat × Int)) (slot : Int) :
    ∀ m : BHDatasetManager, (∀ c ∈ calls, c.2 ≠ slot) →
      dictGet? (runActivations loadf m calls).active_datasets slot
        = dictGet? m.active_datasets slot := by
  induction calls with
  | nil => intro m _; rfl
  | cons c rest ih =>
    intro m hc
    have h1 : dictGet? ((set_active_dataset loadf m c.1 c.2).2).active_datasets slot
        = dictGet? m.active_datasets slot :=
      set_active_dataset_active_other loadf m c.1 c.2 slot
        (fun he => hc c (List.mem_cons_self _ _) he.symm)
    have h2 := ih ((set_active_dataset loadf m c.1 c.2).2)
      (fun c' hc' => hc c' (List.mem_cons_of_mem _ hc'))
    simp only [runActivations, List.foldl_cons] at *
    rw [h2, h1]

/-- C8: a slot never named by any set_active_dataset call resolves to the
absence sentinel None, and get_active changes nothing: the manager comes
back exactly as it went in (no loading, no cache or slot-map update). -/
theorem claim_C8 (loadf : BHDataSource → BHDataset) (m0 : BHDatasetManager)
    (h0 : m0.active_datasets = []) (calls : List (Nat × Int)) (slot : Int)
    (hnever : ∀ c ∈ calls, c.2 ≠ slot) :
    get_active (runActivations loadf m0 calls) slot
      = (none, runActivations loadf m0 calls) := by
  have hkey := runActivations_slot_untouched loadf calls slot m0 hnever
  rw [h0] at hkey
  simp only [dictGet?] at hkey
  unfold get_active
  rw [hkey]

theorem claim_C8_witness :
    BHDatasetManager.init.active_datasets = []
    ∧ (∀ c ∈ [((0 : Nat), (1 : Int))], c.2 ≠ (0 : Int))
    ∧ get_active (runActivations BHDataset.init BHDatasetManager.init [(0, 1)]) 0
        = (none, runActivations BHDataset.init BHDatasetManager.init [(0, 1)]) :=
  ⟨rfl, by decide, claim_C8 BHDataset.init BHDatasetManager.init rfl [(0, 1)] 0 (by decide)⟩

theorem org_layers_valid_count (org : List DataFilterLayer)
    (h : org_layers_valid org = true) (i : Nat) (hi : i < org.length) :
    (org.map (fun o => o.layer_idx)).count ((i : Int)) = 1 := by
  have hcount := List.all_eq_true.mp h ((i : Nat)) (List.mem_range.mpr hi)
  have : org.countP (fun o => o.layer_idx == ((i : Int))) = 1 := by
    simpa using hcount
  rw [List.count_eq_countP, List.countP_map]
  simpa [Function.comp] using this

theorem org_layers_valid_perm (org : List DataFilterLayer)
    (h : org_layers_valid org = true) :
    (org.map (fun o => o.layer_idx)).Perm
      ((List.range org.length).map (fun n : Nat => (n : Int))) := by
  have hinj : Function.Injective (fun n : Nat => (n : Int)) := by
    intro a b hab
    simpa using hab
  have hRnodup : ((List.range org.length).map (fun n : Nat => (n : Int))).Nodup :=
    (List.nodup_range _).map hinj
  have hsub : List.Subperm ((List.range org.length).map (fun n : Nat => (n : Int)))
      (org.map (fun o => o.layer_idx)) := by
    rw [List.subperm_ext_iff]
    intro x hx
    obtain ⟨n, hn, rfl⟩ := List.mem_map.mp hx
    have h1 := List.count_eq_one_of_mem hRnodup hx
    have h2 := org_layers_valid_count org h n (List.mem_range.mp hn)
    omega
  exact (hsub.perm_of_length_le (by simp)).symm

/-- C6: any configuration whose organization-structure layer indices are
not exactly a permutation of 0..N-1 (N the layer count) makes
load_configuration on a fresh manager return false. -/
theorem claim_C6 (m : BHDatasetManager) (hm : m.org_structure = [])
    (ua : List (String × String)) (conf : DataConf)
    (h : ¬ (conf.organization_structure.map (fun r => r.layer)).Perm
        ((List.range conf.organization_structure.length).map (fun n : Nat => (n : Int)))) :
    (load_configuration m ua (some conf)).1 = false := by
  unfold load_configuration
  simp only
  split
  · rfl
  · rename_i oka heq
    split
    · rename_i hv
      exfalso
      apply h
      rw [hm] at hv
      simp only [List.nil_append] at hv
      have hperm := org_layers_valid_perm _ hv
      simpa using hperm
    · rfl

/-- Configuration with a gapped organization layer set 0, 2 for the C6
witness. -/
def confC6 : DataConf :=
  { dir_abbrev := []
    data_sources := []
    organization_structure := [⟨0, [], false⟩, ⟨2, [], false⟩] }

theorem claim_C6_witness :
    BHDatasetManager.init.org_structure = []
    ∧ ¬ ((confC6.organization_structure.map (fun r => r.layer)).Perm
        ((List.range confC6.organization_structure.length).map (fun n : Nat => (n : Int))))
    ∧ (load_configuration BHDatasetManager.init [] (some confC6)).1 = false :=
  ⟨rfl, by decide, claim_C6 BHDatasetManager.init rfl [] confC6 (by decide)⟩

theorem findLoadedIdx_isSome_of_mem (loaded : List BHDataset) (uid : Nat)
    (h : uid ∈ loaded.map (fun ds => ds.unique_id)) :
    ∃ i, findLoadedIdx loaded uid = some i := by
  induction loaded with
  | nil => simp at h
  | cons ds rest ih =>
    by_cases hd : ds.unique_id = uid
    · exact ⟨0, by simp [findLoadedIdx, hd]⟩
    · have hrest : uid ∈ rest.map (fun ds => ds.unique_id) := by
        have h' : uid = ds.unique_id ∨ ∃ a ∈ rest, a.unique_id = uid := by simpa using h
        rcases h' with h1 | ⟨a, ha, hau⟩
        · exact absurd h1.symm hd
        · exact List.mem_map.mpr ⟨a, ha, hau⟩
      obtain ⟨i, hi⟩ := ih hrest
      exact ⟨i + 1, by simp [findLoadedIdx, hd, hi]⟩

theorem findLoadedIdx_some_spec (loaded : List BHDataset) (uid : Nat) :
    ∀ i, findLoadedIdx loaded uid = some i →
      ∃ ds, loaded.get? i = some ds ∧ ds.unique_id = uid ∧ i < loaded.length := by
  induction loaded with
  | nil => intro i h; simp [findLoadedIdx] at h
  | cons ds rest ih =>
    intro i h
    unfold findLoadedIdx at h
    by_cases hd : ds.unique_id = uid
    · rw [if_pos (by simpa using hd)] at h
      obtain rfl : (0 : Nat) = i := by simpa using h
      exact ⟨ds, by simp, hd, by simp⟩
    · rw [if_neg (by simpa using hd)] at h
      rcases hmap : findLoadedIdx rest uid with _ | j
      · rw [hmap] at h; simp at h
      · rw [hmap] at h
        obtain rfl : j + 1 = i := by simpa using h
        obtain ⟨ds', hds', hu, hb⟩ := ih j hmap
        exact ⟨ds', by simpa using hds', hu, by simpa using hb⟩

theorem set_active_dataset_cached (loadf : BHDataSource → BHDataset)
    (m : BHDatasetManager) (uid : Nat) (slot : Int)
    (h : uid ∈ m.loaded_data.map (fun ds => ds.unique_id)) :
    (set_active_dataset loadf m uid slot).1 = true
    ∧ (set_active_dataset loadf m uid slot).2.loaded_data = m.loaded_data
    ∧ (set_active_dataset loadf m uid slot).2.load_log = m.load_log
    ∧ (set_active_dataset loadf m uid slot).2.sources_info = m.sources_info := by
  obtain ⟨i, hi⟩ := findLoadedIdx_isSome_of_mem _ _ h
  simp [set_active_dataset, hi]

theorem set_active_dataset_load (loadf : BHDataSource → BHDataset)
    (m : BHDatasetManager) (uid : Nat) (slot : Int)
    (hnot : findLoadedIdx m.loaded_data uid = none)
    (hmem : uid ∈ m.sources_info.map (fun s => s.unique_id)) :
    ∃ src, m.sources_info.find? (fun s => s.unique_id == uid) = some src
      ∧ src.unique_id = uid
      ∧ (set_active_dataset loadf m uid slot).1 = true
      ∧ (set_active_dataset loadf m uid slot).2.loaded_data = m.loaded_data ++ [loadf src]
      ∧ (set_active_dataset loadf m uid slot).2.load_log = m.load_log ++ [uid]
      ∧ (set_active_dataset loadf m uid slot).2.sources_info = m.sources_info
      ∧ (set_active_dataset loadf m uid slot).2.active_datasets
          = dictSet m.active_datasets slot m.loaded_data.length := by
  have hex : (m.sources_info.find? (fun s => s.unique_id == uid)).isSome := by
    rw [List.find?_isSome]
    obtain ⟨s, hs, he⟩ := List.mem_map.mp hmem
    exact ⟨s, hs, by simp [he]⟩
  obtain ⟨src, hfind⟩ := Option.isSome_iff_exists.mp hex
  have hsrc : src.unique_id = uid := by simpa using List.find?_some hfind
  refine ⟨src, hfind, hsrc, ?_⟩
  simp [set_active_dataset, hnot, hfind, hsrc]

theorem runActivations_cached_noop (loadf : BHDataSource → BHDataset)
    (uid : Nat) (slots : List Int) :
    ∀ m : BHDatasetManager, uid ∈ m.loaded_data.map (fun ds => ds.unique_id) →
      (runActivations loadf m (slots.map (fun sl => (uid, sl)))).load_log = m.load_log
      ∧ (runActivations loadf m (slots.map (fun sl => (uid, sl)))).loaded_data
          = m.loaded_data := by
  induction slots with
  | nil => intro m _; exact ⟨rfl, rfl⟩
  | cons sl rest ih =>
    intro m hm
    have hstep := set_active_dataset_cached loadf m uid sl hm
    have hm' : uid ∈ ((set_active_dataset loadf m uid sl).2).loaded_data.map
        (fun ds => ds.unique_id) := by
      rw [hstep.2.1]; exact hm
    have hrest := ih _ hm'
    simp only [List.map_cons, runActivations, List.foldl_cons] at *
    exact ⟨hrest.1.trans hstep.2.2.1, hrest.2.trans hstep.2.1⟩

/-- C3: for a unique_id in the catalog of a freshly loaded manager, any
sequence of set_active_dataset calls naming it (whatever the slots)
invokes the user load_function for it exactly once — on the first call —
and later calls resolve from the cache without loading again: the load
log ends up holding exactly one entry for that unique_id (none if there
was no call). -/
theorem claim_C3 (loadf : BHDataSource → BHDataset)
    (hload : ∀ s, (loadf s).unique_id = s.unique_id)
    (m : BHDatasetManager) (uid : Nat)
    (hcat : uid ∈ m.sources_info.map (fun s => s.unique_id))
    (hfresh : m.loaded_data = []) (hlog : m.load_log = [])
    (slots : List Int) :
    (runActivations loadf m (slots.map (fun sl => (uid, sl)))).load_log.count uid
      = if slots.isEmpty then 0 else 1 := by
  cases slots with
  | nil => simp [runActivations, hlog]
  | cons sl rest =>
    have hnot : findLoadedIdx m.loaded_data uid = none := by
      rw [hfresh]; rfl
    obtain ⟨src, hfind, hsrc, hret, hld, hll, hsi, hact⟩ :=
      set_active_dataset_load loadf m uid sl hnot hcat
    have hm' : uid ∈ ((set_active_dataset loadf m uid sl).2).loaded_data.map
        (fun ds => ds.unique_id) := by
      rw [hld]
      simp [hload, hsrc]
    have hrest := runActivations_cached_noop loadf uid rest _ hm'
    simp only [List.map_cons, runActivations, List.foldl_cons] at *
    rw [hrest.1, hll, hlog]
    simp

/-- Catalog entry and one-source manager for the C3 witness. -/
def srcW0 : BHDataSource := BHDataSource.init "f1" [("p", BHValue.i 1)] [] 0

/-- One-source manager for the C3 witness. -/
def mgrW : BHDatasetManager := { BHDatasetManager.init with sources_info := [srcW0] }

theorem claim_C3_witness :
    (0 : Nat) ∈ mgrW.sources_info.map (fun s => s.unique_id)
    ∧ mgrW.loaded_data = []
    ∧ mgrW.load_log = []
    ∧ (runActivations BHDataset.init mgrW
        (([0, 0] : List Int).map (fun sl => ((0 : Nat), sl)))).load_log.count 0
        = if ([(0 : Int), 0]).isEmpty then 0 else 1 :=
  ⟨by decide, rfl, rfl,
    claim_C3 BHDataset.init (fun s => rfl) mgrW 0 (by decide) rfl rfl [0, 0]⟩

/-- The unique_id of the last call in the sequence that named the given
slot. -/
def lastActivated (calls : List (Nat × Int)) (slot : Int) : Option Nat :=
  ((calls.filter (fun c => c.2 == slot)).getLast?).map Prod.fst

theorem lastActivated_append_one (l : List (Nat × Int)) (c : Nat × Int) (slot : Int) :
    lastActivated (l ++ [c]) slot
      = if c.2 = slot then some c.1 else lastActivated l slot := by
  unfold lastActivated
  rw [List.filter_append]
  by_cases h : c.2 = slot
  · have hf : List.filter (fun c => c.2 == slot) [c] = [c] := by simp [List.filter, h]
    rw [hf, if_pos h, List.getLast?_concat]
    rfl
  · have hb : (c.2 == slot) = false := by simp [h]
    have hf : List.filter (fun c => c.2 == slot) [c] = [] := by simp [List.filter, hb]
    rw [hf, if_neg h, List.append_nil]

theorem runActivations_append_one (loadf : BHDataSource → BHDataset)
    (m : BHDatasetManager) (l : List (Nat × Int)) (c : Nat × Int) :
    runActivations loadf m (l ++ [c])
      = (set_active_dataset loadf (runActivations loadf m l) c.1 c.2).2 := by
  simp [runActivations, List.foldl_append]

theorem set_active_dataset_cached_spec (loadf : BHDataSource → BHDataset)
    (m : BHDatasetManager) (uid : Nat) (slot : Int) (i : Nat)
    (hf : findLoadedIdx m.loaded_data uid = some i) :
    (set_active_dataset loadf m uid slot).1 = true
    ∧ (set_active_dataset loadf m uid slot).2.loaded_data = m.loaded_data
    ∧ (set_active_dataset loadf m uid slot).2.load_log = m.load_log
    ∧ (set_active_dataset loadf m uid slot).2.sources_info = m.sources_info
    ∧ (set_active_dataset loadf m uid slot).2.active_datasets
        = dictSet m.active_datasets slot i := by
  simp [set_active_dataset, hf]

theorem runActivations_resolution (loadf : BHDataSource → BHDataset)
    (hload : ∀ s, (loadf s).unique_id = s.unique_id)
    (m0 : BHDatasetManager) (h2 : m0.active_datasets = [])
    (calls : List (Nat × Int))
    (hsucc : ∀ c ∈ calls, c.1 ∈ m0.sources_info.map (fun s => s.unique_id)) :
    (runActivations loadf m0 calls).sources_info = m0.sources_info
    ∧ (∀ slot idx, dictGet? (runActivations loadf m0 calls).active_datasets slot = some idx →
        idx < (runActivations loadf m0 calls).loaded_data.length)
    ∧ (∀ slot uid, lastActivated calls slot = some uid →
        ∃ idx ds, dictGet? (runActivations loadf m0 calls).active_datasets slot = some idx
          ∧ (runActivations loadf m0 calls).loaded_data.get? idx = some ds
          ∧ ds.unique_id = uid)
    ∧ (∀ slot, lastActivated calls slot = none →
        dictGet? (runActivations loadf m0 calls).active_datasets slot = none) := by
  induction calls using List.reverseRecOn with
  | nil =>
    refine ⟨rfl, ?_, ?_, ?_⟩
    · intro slot idx h
      simp [runActivations, h2, dictGet?] at h
    · intro slot uid h
      simp [lastActivated] at h
    · intro slot _
      simp [runActivations, h2, dictGet?]
  | append_singleton l c ih =>
    obtain ⟨Msrc, Minv, Mres, Mnone⟩ :=
      ih (fun c' h' => hsucc c' (List.mem_append_left _ h'))
    have hc : c.1 ∈ (runActivations loadf m0 l).sources_info.map (fun s => s.unique_id) := by
      rw [Msrc]
      exact hsucc c (by simp)
    rw [runActivations_append_one]
    rcases hf : findLoadedIdx (runActivations loadf m0 l).loaded_data c.1 with _ | i
    · obtain ⟨src, hfind, hsrc, hret, hld, hll, hsi, hact⟩ :=
        set_active_dataset_load loadf (runActivations loadf m0 l) c.1 c.2 hf hc
      refine ⟨hsi.trans Msrc, ?_, ?_, ?_⟩
      · intro slot idx h
        rw [hact] at h
        rw [hld]
        by_cases hs : slot = c.2
        · subst hs
          rw [dictGet?_set_self] at h
          obtain rfl : (runActivations loadf m0 l).loaded_data.length = idx := by
            simpa using h
          simp
        · rw [dictGet?_set_ne _ _ _ _ hs] at h
          have := Minv slot idx h
          simp
          omega
      · intro slot uid h
        rw [lastActivated_append_one] at h
        rw [hact, hld]
        by_cases hs : c.2 = slot
        · rw [if_pos hs] at h
          obtain rfl : c.1 = uid := by simpa using h
          subst hs
          refine ⟨(runActivations loadf m0 l).loaded_data.length, loadf src,
            dictGet?_set_self _ _ _, List.get?_concat_length _ _, ?_⟩
          rw [hload, hsrc]
        · rw [if_neg hs] at h
          obtain ⟨idx, ds, ha, hg, hu⟩ := Mres slot uid h
          refine ⟨idx, ds, ?_, ?_, hu⟩
          · rw [dictGet?_set_ne _ _ _ _ (fun he => hs he.symm)]
            exact ha
          · rw [List.get?_append (Minv slot idx ha)]
            exact hg
      · intro slot h
        rw [lastActivated_append_one] at h
        by_cases hs : c.2 = slot
        · rw [if_pos hs] at h
          exact absurd h (by simp)
        · rw [if_neg hs] at h
          rw [hact, dictGet?_set_ne _ _ _ _ (fun he => hs he.symm)]
          exact Mnone slot h
    · obtain ⟨hret, hld, hll, hsi, hact⟩ :=
        set_active_dataset_cached_spec loadf (runActivations loadf m0 l) c.1 c.2 i hf
      obtain ⟨dsi, hgi, hui, hbi⟩ := findLoadedIdx_some_spec _ _ i hf
      refine ⟨hsi.trans Msrc, ?_, ?_, ?_⟩
      · intro slot idx h
        rw [hact] at h
        rw [hld]
        by_cases hs : slot = c.2
        · subst hs
          rw [dictGet?_set_self] at h
          obtain rfl : i = idx := by simpa using h
          exact hbi
        · rw [dictGet?_set_ne _ _ _ _ hs] at h
          exact Minv slot idx h
      · intro slot uid h
        rw [lastActivated_append_one] at h
        rw [hact, hld]
        by_cases hs : c.2 = slot
        · rw [if_pos hs] at h
          obtain rfl : c.1 = uid := by simpa using h
          subst hs
          exact ⟨i, dsi, dictGet?_set_self _ _ _, hgi, hui⟩
        · rw [if_neg hs] at h
          obtain ⟨idx, ds, ha, hg, hu⟩ := Mres slot uid h
          exact ⟨idx, ds, by
            rw [dictGet?_set_ne _ _ _ _ (fun he => hs he.symm)]
            exact ha, hg, hu⟩
      · intro slot h
        rw [lastActivated_append_one] at h
        by_cases hs : c.2 = slot
        · rw [if_pos hs] at h
          exact absurd h (by simp)
        · rw [if_neg hs] at h
          rw [hact, dictGet?_set_ne _ _ _ _ (fun he => hs he.symm)]
          exact Mnone slot h

/-- Second catalog entry for the two-source manager. -/
def srcW1 : BHDataSource := BHDataSource.init "f2" [("p", BHValue.i 2)] [] 1

/-- Two-source manager for the C5 end-to-end scenario. -/
def mgrW2 : BHDatasetManager := { BHDatasetManager.init with sources_info := [srcW0, srcW1] }

/-- C5: after any sequence of successful set_active_dataset calls on a
freshly loaded manager, every slot resolves through the cache to a loaded
dataset whose unique_id is the one most recently activated into that
slot; and in the concrete two-source scenario, activating id 0 into slot
1 and id 1 into slot 2 leaves both independently retrievable with the
matching ids, with the load function invoked exactly twice. -/
theorem claim_C5 (loadf : BHDataSource → BHDataset)
    (hload : ∀ s, (loadf s).unique_id = s.unique_id)
    (m0 : BHDatasetManager) (h2 : m0.active_datasets = [])
    (calls : List (Nat × Int))
    (hsucc : ∀ c ∈ calls, c.1 ∈ m0.sources_info.map (fun s => s.unique_id)) :
    (∀ slot uid, lastActivated calls slot = some uid →
        ∃ ds, (get_active (runActivations loadf m0 calls) slot).1 = some ds
          ∧ ds.unique_id = uid)
    ∧ ((get_active (runActivations loadf mgrW2 [(0, 1), (1, 2)]) 1).1.map
          (fun ds => ds.unique_id) = some 0
      ∧ (get_active (runActivations loadf mgrW2 [(0, 1), (1, 2)]) 2).1.map
          (fun ds => ds.unique_id) = some 1
      ∧ (runActivations loadf mgrW2 [(0, 1), (1, 2)]).load_log.length = 2) := by
  obtain ⟨-, -, hres, -⟩ := runActivations_resolution loadf hload m0 h2 calls hsucc
  constructor
  · intro slot uid hlast
    obtain ⟨idx, ds, ha, hg, hu⟩ := hres slot uid hlast
    refine ⟨ds, ?_, hu⟩
    unfold get_active
    rw [ha]
    simpa using hg
  · simp [runActivations, set_active_dataset, findLoadedIdx, get_active, dictSet, dictGet?,
      broadcast_was_changed, mgrW2, srcW0, srcW1, BHDataSource.init, BHDatasetManager.init,
      hload, List.find?]

theorem claim_C5_witness :
    (∃ ds, (get_active (runActivations BHDataset.init mgrW2 [(0, 1), (1, 2)]) 1).1 = some ds
        ∧ ds.unique_id = 0)
    ∧ (get_active (runActivations BHDataset.init mgrW2 [(0, 1), (1, 2)]) 1).1.map
        (fun ds => ds.unique_id) = some 0
    ∧ (get_active (runActivations BHDataset.init mgrW2 [(0, 1), (1, 2)]) 2).1.map
        (fun ds => ds.unique_id) = some 1
    ∧ (runActivations BHDataset.init mgrW2 [(0, 1), (1, 2)]).load_log.length = 2 := by
  have h := claim_C5 BHDataset.init (fun s => rfl) mgrW2 rfl [(0, 1), (1, 2)] (by decide)
  exact ⟨h.1 1 0 (by decide), h.2⟩

end Blackhole
